import Mathlib

/-!
Shallow embedding of the RubinTV live-observation pipeline.

The definitions below are translated from the repository's Python sources:
`src/rubintv/background/currentpoller.py`, `src/rubintv/background/historicaldata.py`,
`src/rubintv/handlers/websocket_helpers.py`, `src/rubintv/s3client.py`,
`src/rubintv/models/helpers.py` and `src/rubintv/models/models.py`.
Python dictionaries are modelled as association lists, exceptions as an
explicit result type `PRes`, and the S3 bucket as a pair of functions
(listing by prefix, JSON fetch by key).
-/

namespace RubinTV

/-- A bucket object as produced by `S3Client.list_objects`: a dict with
`"key"` and `"hash"` entries. -/
structure S3Obj where
  key : String
  hash : String
deriving DecidableEq, Repr

/-- A sequence number: either a decimal number or the literal `"final"`
(`models.py` maps `"final"` to the high integer 99999 for ordering). -/
inductive SeqVal where
  | num (n : Nat)
  | final
deriving DecidableEq, Repr

/-- The integer used when ordering events by sequence number: `seq_num` when
it is an `int`, else the sentinel value 99999 (see
`HistoricalPoller.get_most_recent_day` and `Event.parse_filename`). -/
def SeqVal.toOrd : SeqVal → Nat
  | .num n => n
  | .final => 99999

/-- An `Event` record parsed from an object key of the form
`{camera}/{YYYY-MM-DD}/{channel}/{seq}/{filename}.{ext}`.  The transient
`url` field is not part of the record since it does not take part in
identity. -/
structure Event where
  key : String
  hash : String
  camera_name : String
  day_obs : String
  channel_name : String
  seq_num : SeqVal
  filename : String
  ext : String
deriving DecidableEq, Repr

/-- Event identity: two events compare equal iff their `key` and `hash`
are equal (the `url` field never takes part). -/
def eventEq (a b : Event) : Bool :=
  a.key == b.key && a.hash == b.hash

/-- The parsed metadata JSON of shape `{ seq_num_string: { column: value } }`. -/
structure MetaJson where
  rows : List (String × List (String × String))
deriving DecidableEq, Repr

/-- A channel of a camera (only the name matters to the poller). -/
structure Channel where
  name : String
deriving DecidableEq, Repr

/-- A camera: name, online flag and its ordered channel list. -/
structure Camera where
  name : String
  online : Bool
  channels : List Channel
deriving DecidableEq, Repr

/-- A location: name and its ordered camera list. -/
structure Location where
  name : String
  cameras : List Camera
deriving DecidableEq, Repr

/-! ### String helpers (kernel-friendly counterparts of the Python ones) -/

/-- `suffix in s`-style check that `s` ends with `suffix`
(Python `str.endswith`). -/
def strEndsWith (s suffix : String) : Bool :=
  suffix.data.isSuffixOf s.data

/-- Does `pat` occur as a contiguous sublist of `l`? -/
def subListAt (pat : List Char) : List Char → Bool
  | [] => pat.isEmpty
  | x :: xs => pat.isPrefixOf (x :: xs) || subListAt pat xs

/-- Substring containment (Python `"night_report" in key`). -/
def strContains (s pat : String) : Bool :=
  subListAt pat.data s.data

/-- Split a character list on a separator character. -/
def splitOnCharAux (c : Char) : List Char → List Char → List (List Char)
  | [], acc => [acc.reverse]
  | x :: xs, acc =>
      if x == c then acc.reverse :: splitOnCharAux c xs []
      else splitOnCharAux c xs (x :: acc)

/-- Python `str.split(c)` for a single-character separator. -/
def strSplitOnChar (c : Char) (s : String) : List String :=
  (splitOnCharAux c s.data []).map (fun cs => ⟨cs⟩)

/-- Join strings with a separator (inverse of splitting). -/
def joinWith (sep : String) : List String → String
  | [] => ""
  | [x] => x
  | x :: y :: xs => x ++ sep ++ joinWith sep (y :: xs)

/-- Numeric value of a digit string. -/
def digitsVal (cs : List Char) : Nat :=
  cs.foldl (fun acc c => acc * 10 + (c.toNat - 48)) 0

/-- Parse a non-empty all-digit string as a decimal number. -/
def parseNat (s : String) : Option Nat :=
  if s.data ≠ [] ∧ s.data.all Char.isDigit then some (digitsVal s.data) else none

/-- A `YYYY-MM-DD` date string. -/
def isDateStr (s : String) : Bool :=
  match strSplitOnChar '-' s with
  | [y, m, d] =>
      y.length == 4 && m.length == 2 && d.length == 2 &&
      (parseNat y).isSome && (parseNat m).isSome && (parseNat d).isSome
  | _ => false

/-- Parse a sequence segment: decimal (possibly zero-padded) or the
literal `final`. -/
def parseSeq (s : String) : Option SeqVal :=
  if s == "final" then some .final
  else match parseNat s with
    | some n => some (.num n)
    | none => none

/-- Split `filename.ext` on the last dot. -/
def splitExt (s : String) : Option (String × String) :=
  match (strSplitOnChar '.' s).reverse with
  | e :: rest =>
      match rest with
      | [] => none
      | _ => some (joinWith "." rest.reverse, e)
  | [] => none

/-- Modelled from the spec: the pydantic `Event` model (used by the pollers
but absent from `src/`, whose `models.py` predates it) parses an object key
`{camera}/{YYYY-MM-DD}/{channel}/{seq}/{filename}.{ext}` into an `Event`,
where `date` must match `YYYY-MM-DD` and `seq` is decimal or the literal
`final`; an unparseable key is rejected. -/
def parseEvent (o : S3Obj) : Option Event :=
  match strSplitOnChar '/' o.key with
  | [cam, d, chan, seqStr, fname] =>
      if isDateStr d then
        match parseSeq seqStr, splitExt fname with
        | some sq, some (base, e) =>
            some { key := o.key, hash := o.hash, camera_name := cam, day_obs := d,
                   channel_name := chan, seq_num := sq, filename := base, ext := e }
        | _, _ => none
      else none
  | _ => none

/-- `objects_to_events` (`models/helpers.py`): convert each object to an
`Event`, dropping the unparseable ones. -/
def objects_to_events (objects : List S3Obj) : List Event :=
  objects.filterMap parseEvent

/-! ### Python dict as an association list -/

/-- Dictionary read: `m[k]` / `k in m`. -/
def dictGet {α : Type} : List (String × α) → String → Option α
  | [], _ => none
  | (k', v) :: rest, k => if k' == k then some v else dictGet rest k

/-- Dictionary write `m[k] = v`: replace the binding if present, else append. -/
def dictSet {α : Type} : List (String × α) → String → α → List (String × α)
  | [], k, v => [(k, v)]
  | (k', v') :: rest, k, v =>
      if k' == k then (k, v) :: rest else (k', v') :: dictSet rest k v

theorem dictGet_dictSet_self {α : Type} (m : List (String × α)) (k : String) (v : α) :
    dictGet (dictSet m k v) k = some v := by
  induction m with
  | nil => simp [dictGet, dictSet]
  | cons hd tl ih =>
      obtain ⟨k', v'⟩ := hd
      by_cases h : k' = k
      · simp [dictGet, dictSet, h]
      · simp only [dictSet, dictGet]
        rw [if_neg (by simpa using h)]
        simp only [dictGet]
        rw [if_neg (by simpa using h)]
        exact ih

theorem dictGet_dictSet_ne {α : Type} (m : List (String × α)) (k k' : String) (v : α)
    (h : k' ≠ k) : dictGet (dictSet m k v) k' = dictGet m k' := by
  induction m with
  | nil =>
      simp only [dictSet, dictGet]
      rw [if_neg (by simpa using (Ne.symm h))]
  | cons hd tl ih =>
      obtain ⟨k₀, v₀⟩ := hd
      by_cases hk : k₀ = k
      · subst hk
        simp only [dictSet]
        rw [if_pos (by simp)]
        simp only [dictGet]
        rw [if_neg (by simpa using (Ne.symm h)), if_neg (by simpa using (Ne.symm h))]
      · simp only [dictSet]
        rw [if_neg (by simpa using hk)]
        simp only [dictGet]
        by_cases hk' : k₀ = k'
        · rw [if_pos (by simpa using hk'), if_pos (by simpa using hk')]
        · rw [if_neg (by simpa using hk'), if_neg (by simpa using hk')]
          exact ih

/-! ### Current-day poller (`background/currentpoller.py`) -/

/-- An uncaught Python exception. -/
inductive PyErr where
  | unboundLocalError
  | keyError (k : String)
  | jsonDecodeError
deriving DecidableEq, Repr

/-- Result of running a piece of Python code: a value or an uncaught
exception. -/
inductive PRes (α : Type) where
  | ok (val : α)
  | err (e : PyErr)
deriving DecidableEq, Repr

/-- A broadcast message handed to the websocket layer.  `cameraMetadata`,
`channel` and `camera` correspond to `notify_camera_metadata_update`,
`notify_channel_update` and `notify_camera_events_update`; `nightReport`
is a night-report message (the spec's *night-report* broadcast). -/
inductive Msg where
  | cameraMetadata (target : String) (data : Option MetaJson)
  | channel (target : String) (event : Event)
  | camera (target : String) (events : List Event)
  | nightReport (target : String)
deriving DecidableEq, Repr

/-- Is this a night-report message? -/
def Msg.isNightReport : Msg → Bool
  | .nightReport _ => true
  | _ => false

/-- The mutable state of `CurrentPoller`: `_objects`, `_metadata` and
`_channels` (each a dict keyed by `loc/cam` or `loc/cam/chan`). -/
structure PollState where
  objects : List (String × List S3Obj)
  metadata : List (String × Option MetaJson)
  channels : List (String × Option Event)
deriving DecidableEq, Repr

/-- The object store as seen by one poll iteration: a listing per
(location name, prefix) and a JSON fetch per (location name, key). -/
structure Bucket where
  listing : String → String → List S3Obj
  getJson : String → String → Option MetaJson

/-- `CurrentPoller.filter_camera_metadata_object`: separate out the single
object whose key ends with `metadata.json`; `none` models the `ValueError`
raised when there is more than one. -/
def filter_camera_metadata_object (objects : List S3Obj) :
    Option (Option S3Obj × List S3Obj) :=
  let md_objs := objects.filter (fun o => strEndsWith o.key "metadata.json")
  if md_objs.length > 1 then none
  else
    match md_objs with
    | [] => some (none, objects)
    | o :: _ => some (some o, objects.erase o)

/-- `CurrentPoller.process_metadata_file`: fetch and decode the metadata
object; if it is a first observation or differs from the cached payload,
update the cache and broadcast a *camera-metadata* message. -/
def process_metadata_file (bucket : Bucket) (locName : String) (md_obj : S3Obj)
    (camera_ref : String) (st : PollState) : PollState × List Msg :=
  let data := bucket.getJson locName md_obj.key
  match dictGet st.metadata camera_ref with
  | none =>
      ({ st with metadata := dictSet st.metadata camera_ref data },
       [.cameraMetadata camera_ref data])
  | some stored =>
      if data ≠ stored then
        ({ st with metadata := dictSet st.metadata camera_ref data },
         [.cameraMetadata camera_ref data])
      else (st, [])

/-- `CurrentPoller.seive_out_metadata`: on a `ValueError` from
`filter_camera_metadata_object` the error is logged, but the subsequent
`if md_obj:` then reads the never-assigned local `md_obj`, raising
`UnboundLocalError`. -/
def seive_out_metadata (bucket : Bucket) (locName : String) (objects : List S3Obj)
    (cam_loc_id : String) (st : PollState) : PRes (List S3Obj × PollState × List Msg) :=
  match filter_camera_metadata_object objects with
  | none => .err .unboundLocalError
  | some (none, rest) => .ok (rest, st, [])
  | some (some md, rest) =>
      let r := process_metadata_file bucket locName md cam_loc_id st
      .ok (rest, r.1, r.2)

/-- `CurrentPoller.filter_night_report_objects`: split off the objects whose
key contains `night_report`. -/
def filter_night_report_objects (objects : List S3Obj) : List S3Obj × List S3Obj :=
  let reports := objects.filter (fun o => strContains o.key "night_report")
  let filtered := objects.filter (fun o => !reports.contains o)
  (reports, filtered)

/-- `CurrentPoller.seive_out_night_reports`: the report objects are dropped
and only the remaining objects are returned. -/
def seive_out_night_reports (objects : List S3Obj) : List S3Obj :=
  (filter_night_report_objects objects).2

/-- `CurrentPoller.process_night_report_objects`: the body is a bare
`return` — it mutates nothing and broadcasts nothing (and the poll loop
never calls it). -/
def process_night_report_objects (_report_objs : List S3Obj)
    (_camera_ref : String) (_bucket_name : String) (st : PollState) :
    PollState × List Msg :=
  (st, [])

/-- The events of one channel: `[e for e in events if e.channel_name == chan.name]`. -/
def chanEvents (events : List Event) (chanName : String) : List Event :=
  events.filter (fun e => e.channel_name == chanName)

/-- `self._channels[chan_lookup] != current_event`: the cached value is an
`Event | None`; comparison with an event uses event identity. -/
def optNe (stored : Option Event) (e : Event) : Bool :=
  match stored with
  | none => true
  | some e' => !(eventEq e' e)

/-- The per-channel loop body of `CurrentPoller.update_channel_events`:
for each channel, take the *last* element (`list.pop()`) of that channel's
events; if it differs from the cached current event, update the cache and
broadcast a *channel* message.  Reading a `_channels` key that was never
initialised is a `KeyError`. -/
def uce_go (events : List Event) (cam_loc_id : String) :
    List Channel → PollState → PRes (PollState × List Msg)
  | [], st => .ok (st, [])
  | chan :: rest, st =>
      let ch_events := chanEvents events chan.name
      match ch_events.getLast? with
      | none => uce_go events cam_loc_id rest st
      | some current_event =>
          let chan_lookup := cam_loc_id ++ "/" ++ chan.name
          match dictGet st.channels chan_lookup with
          | none => .err (.keyError chan_lookup)
          | some stored =>
              if optNe stored current_event then
                match uce_go events cam_loc_id rest
                    { st with channels :=
                        dictSet st.channels chan_lookup (some current_event) } with
                | .ok (st', msgs) => .ok (st', .channel chan_lookup current_event :: msgs)
                | .err e => .err e
              else uce_go events cam_loc_id rest st

/-- `CurrentPoller.update_channel_events` (returns immediately on an empty
event list). -/
def update_channel_events (events : List Event) (camera : Camera)
    (cam_loc_id : String) (st : PollState) : PRes (PollState × List Msg) :=
  if events.isEmpty then .ok (st, [])
  else uce_go events cam_loc_id camera.channels st

/-- The `self._objects` reconciliation step of the poll loop: store the
channel-event objects when the listing is non-empty and differs from (or is
missing in) the cache. -/
def storeObjects (cam_loc_id : String) (objs2 : List S3Obj) (st : PollState) :
    PollState :=
  if objs2 ≠ [] ∧ dictGet st.objects cam_loc_id ≠ some objs2 then
    { st with objects := dictSet st.objects cam_loc_id objs2 }
  else st

/-- The per-camera body of `CurrentPoller.poll_buckets_for_todays_data`:
list today's objects, seive out metadata and night reports, store the
remaining channel-event objects if they changed, convert them to events,
update the per-channel cache, and finally broadcast the *camera* message
(`notify_camera_events_update` is called unconditionally). -/
def pollCamera (bucket : Bucket) (day locName : String) (camera : Camera)
    (st : PollState) : PRes (PollState × List Msg) :=
  let objs := bucket.listing locName (camera.name ++ "/" ++ day)
  let cam_loc_id := locName ++ "/" ++ camera.name
  match seive_out_metadata bucket locName objs cam_loc_id st with
  | .err e => .err e
  | .ok (objs1, st1, msgs1) =>
      let objs2 := seive_out_night_reports objs1
      let st2 := storeObjects cam_loc_id objs2 st1
      let events := objects_to_events objs2
      match update_channel_events events camera cam_loc_id st2 with
      | .err e => .err e
      | .ok (st3, msgs2) =>
          .ok (st3, msgs1 ++ msgs2 ++ [.camera cam_loc_id events])

/-- Fold of `pollCamera` over a location's cameras, skipping offline ones. -/
def pollCameras (bucket : Bucket) (day locName : String) :
    List Camera → PollState → PRes (PollState × List Msg)
  | [], st => .ok (st, [])
  | cam :: rest, st =>
      if cam.online then
        match pollCamera bucket day locName cam st with
        | .err e => .err e
        | .ok (st', msgs) =>
            match pollCameras bucket day locName rest st' with
            | .err e => .err e
            | .ok (st'', msgs') => .ok (st'', msgs ++ msgs')
      else pollCameras bucket day locName rest st

/-- One full iteration of the poll loop over every location. -/
def pollLocations (bucket : Bucket) (day : String) :
    List Location → PollState → PRes (PollState × List Msg)
  | [], st => .ok (st, [])
  | loc :: rest, st =>
      match pollCameras bucket day loc.name loc.cameras st with
      | .err e => .err e
      | .ok (st', msgs) =>
          match pollLocations bucket day rest st' with
          | .err e => .err e
          | .ok (st'', msgs') => .ok (st'', msgs ++ msgs')

/-- One iteration of `CurrentPoller.poll_buckets_for_todays_data` at a fixed
`day = get_current_day_obs()`, returning the new poller state and the
broadcast messages it emitted in order. -/
def poll_iteration (bucket : Bucket) (day : String) (locations : List Location)
    (st : PollState) : PRes (PollState × List Msg) :=
  pollLocations bucket day locations st

/-- `CurrentPoller.__init__`: the `_channels` dict is pre-populated with
`None` for every (location, camera, channel). -/
def initChannels (locations : List Location) : List (String × Option Event) :=
  locations.flatMap fun loc =>
    loc.cameras.flatMap fun cam =>
      cam.channels.map fun ch =>
        (loc.name ++ "/" ++ cam.name ++ "/" ++ ch.name, (none : Option Event))

/-- The poller state as left by `CurrentPoller.__init__`. -/
def initState (locations : List Location) : PollState :=
  { objects := [], metadata := [], channels := initChannels locations }

/-! ### Concrete fixtures used by the counterexamples and witnesses -/

/-- A single-channel camera `ts8` with channel `monitor`. -/
def exCamera : Camera :=
  { name := "ts8", online := true, channels := [{ name := "monitor" }] }

/-- One location `slac` holding the camera `ts8`. -/
def exLocations : List Location :=
  [{ name := "slac", cameras := [exCamera] }]

/-- A bucket whose listings are all empty. -/
def exBucketEmpty : Bucket :=
  { listing := fun _ _ => [], getJson := fun _ _ => none }

/-- A well-formed channel-event object with sequence number 5. -/
def exObj5 : S3Obj :=
  { key := "ts8/2024-01-15/monitor/000005/ts8_monitor_2024-01-15_000005.jpg",
    hash := "h5" }

/-- A well-formed channel-event object with sequence number 3. -/
def exObj3 : S3Obj :=
  { key := "ts8/2024-01-15/monitor/000003/ts8_monitor_2024-01-15_000003.jpg",
    hash := "h3" }

/-- The event parsed from `exObj5`. -/
def exEvent5 : Event :=
  { key := "ts8/2024-01-15/monitor/000005/ts8_monitor_2024-01-15_000005.jpg",
    hash := "h5", camera_name := "ts8", day_obs := "2024-01-15",
    channel_name := "monitor", seq_num := .num 5,
    filename := "ts8_monitor_2024-01-15_000005", ext := "jpg" }

/-- The event parsed from `exObj3`. -/
def exEvent3 : Event :=
  { key := "ts8/2024-01-15/monitor/000003/ts8_monitor_2024-01-15_000003.jpg",
    hash := "h3", camera_name := "ts8", day_obs := "2024-01-15",
    channel_name := "monitor", seq_num := .num 3,
    filename := "ts8_monitor_2024-01-15_000003", ext := "jpg" }

/-- A bucket whose day listing holds two metadata files for the same
(camera, day). -/
def exBucketTwoMd : Bucket :=
  { listing := fun _ _ =>
      [{ key := "ts8/2024-01-15/metadata.json", hash := "m1" },
       { key := "ts8/2024-01-15/extra/metadata.json", hash := "m2" }],
    getJson := fun _ _ => none }

/-- A bucket whose day listing holds exactly one (new) night-report object. -/
def exBucketNR : Bucket :=
  { listing := fun _ _ =>
      [{ key := "ts8/2024-01-15/night_report/coverage/plot.png", hash := "n1" }],
    getJson := fun _ _ => none }

/-! ### WebSocket hub (`handlers/websocket_helpers.py`) -/

/-- The `connected_clients` table: a client (identified here by a number
standing for its websocket) together with its subscription
`(to_update, target)`. -/
abbrev ConnectedClients := List (Nat × (String × String))

/-- `notify_camera_update`: send to every client whose subscription is
`("camera", loc_cam)`; returns the ids of the clients the message was
delivered to, in table order. -/
def notify_camera_update (clients : ConnectedClients)
    (message_for_cam : String × Option (List Event)) : List Nat :=
  (clients.filter fun c => c.2.1 == "camera" && c.2.2 == message_for_cam.1).map (·.1)

/-- `notify_channel_update`: the loop tests `to_update == "camera"` (not
`"channel"`) against the channel-shaped target `loc/cam/chan`; returns the
ids of the clients the message was delivered to. -/
def notify_channel_update (clients : ConnectedClients)
    (message_for_chan : String × Event) : List Nat :=
  (clients.filter fun c => c.2.1 == "camera" && c.2.2 == message_for_chan.1).map (·.1)

/-! ### Historical poller (`background/historicaldata.py`) -/

/-- The supervisor-loop state of `HistoricalPoller`: `_have_downloaded` and
`_last_reload` (dates as day ordinals). -/
structure HistState where
  haveDownloaded : Bool
  lastReload : Nat
deriving DecidableEq, Repr

/-- One wake of `HistoricalPoller.check_for_new_day` at
`get_current_day_obs() = currentDay`: the guard is
`not self._have_downloaded or self._last_reload > get_current_day_obs()`.
When it holds, every location's store is rebuilt, `_last_reload` is set to
`currentDay` and `_have_downloaded` to `True`; the returned flag says
whether the full rebuild ran. -/
def check_for_new_day_step (currentDay : Nat) (st : HistState) : HistState × Bool :=
  if !st.haveDownloaded || decide (st.lastReload > currentDay) then
    ({ haveDownloaded := true, lastReload := currentDay }, true)
  else (st, false)

/-- Python `max(xs, key=f)`: the first element with maximal key; `none` for
the empty list (where Python raises `ValueError`). -/
def pyMaxBy (f : Event → Nat) : List Event → Option Event
  | [] => none
  | e :: rest => some (rest.foldl (fun best x => if f x > f best then x else best) e)

/-- `Event.day_obs_date()` as an order-preserving encoding of the
`YYYY-MM-DD` string (year·10000 + month·100 + day). -/
def day_obs_date (s : String) : Nat :=
  match strSplitOnChar '-' s with
  | [y, m, d] => (parseNat y).getD 0 * 10000 + (parseNat m).getD 0 * 100 + (parseNat d).getD 0
  | _ => 0

/-- `HistoricalPoller.get_most_recent_day`: take the event with the maximal
`seq_num` (with non-`int` `seq_num` counted as 99999) among the camera's
events, and return that event's date. -/
def get_most_recent_day (events : List Event) (cameraName : String) : Option Nat :=
  match pyMaxBy (fun e => e.seq_num.toOrd)
      (events.filter fun e => e.camera_name == cameraName) with
  | none => none
  | some ev => some (day_obs_date ev.day_obs)

/-! ### Object-store client (`s3client.py`) -/

/-- Outcome of the underlying `client.get_object` call. -/
inductive S3GetResponse where
  | body (content : String)
  | clientError (code : String)
deriving DecidableEq, Repr

/-- `S3Client._get_object`: on success the body is JSON-decoded (a decode
failure propagates); on `ClientError` — whatever its error code — the
function logs at most and returns `None`. -/
def s3_get_object (store : String → S3GetResponse)
    (jsonLoads : String → Option MetaJson) (key : String) : PRes (Option MetaJson) :=
  match store key with
  | .body content =>
      match jsonLoads content with
      | some v => .ok (some v)
      | none => .err .jsonDecodeError
  | .clientError _ => .ok none

/-- The parameters `S3Client.get_presigned_url` passes to
`generate_presigned_url`. -/
structure PresignParams where
  clientMethod : String
  bucket : String
  key : String
  expiresIn : Nat
deriving DecidableEq, Repr

/-- The request built by `get_presigned_url`: always `get_object` with a
hard-coded `ExpiresIn=300`. -/
def presign_request (bucket key : String) : PresignParams :=
  { clientMethod := "get_object", bucket := bucket, key := key, expiresIn := 300 }

/-- `S3Client.get_presigned_url`: return the generated URL, or the empty
string when the storage client raises a `ClientError`. -/
def get_presigned_url (sign : PresignParams → Except String String)
    (bucket key : String) : String :=
  match sign (presign_request bucket key) with
  | .ok url => url
  | .error _ => ""

/-! ### `get_current_day_obs` (`models/models.py`) -/

/-- `timedelta(hours=h)` in seconds. -/
def timedeltaHours (h : Int) : Int := h * 3600

/-- `datetime.date()` for an instant given in seconds since the epoch:
the (floor) day ordinal.  Lean's `/` on `Int` is Euclidean division, which
for the positive divisor 86400 is exactly Python's floor division. -/
def dateOfInstant (t : Int) : Int := t / 86400

/-- `get_current_day_obs()`: the date of `now(UTC) + timedelta(hours=-12)`,
as a function of the current instant in seconds since the epoch. -/
def get_current_day_obs (nowUtc : Int) : Int :=
  dateOfInstant (nowUtc + timedeltaHours (-12))

/-! ### Supporting lemmas -/

theorem eventEq_self (e : Event) : eventEq e e = true := by
  simp [eventEq]

theorem strAppend_left_cancel {a b c : String} (h : a ++ b = a ++ c) : b = c := by
  obtain ⟨bd⟩ := b
  obtain ⟨cd⟩ := c
  obtain ⟨ad⟩ := a
  have hd : ad ++ bd = ad ++ cd := congrArg String.data h
  exact congrArg String.mk (List.append_cancel_left hd)

theorem storeObjects_metadata (cam_loc_id : String) (objs2 : List S3Obj)
    (st : PollState) : (storeObjects cam_loc_id objs2 st).metadata = st.metadata := by
  unfold storeObjects
  split <;> rfl

theorem storeObjects_channels (cam_loc_id : String) (objs2 : List S3Obj)
    (st : PollState) : (storeObjects cam_loc_id objs2 st).channels = st.channels := by
  unfold storeObjects
  split <;> rfl

theorem storeObjects_lookup (cam_loc_id : String) (objs2 : List S3Obj)
    (st : PollState) (h : objs2 ≠ []) :
    dictGet (storeObjects cam_loc_id objs2 st).objects cam_loc_id = some objs2 := by
  unfold storeObjects
  split
  · exact dictGet_dictSet_self _ _ _
  · rename_i hc
    rcases not_and_or.mp hc with h1 | h2
    · exact absurd h (by simpa using h1)
    · simpa using not_not.mp h2

theorem storeObjects_stable (cam_loc_id : String) (objs2 : List S3Obj)
    (st : PollState) (h : objs2 = [] ∨ dictGet st.objects cam_loc_id = some objs2) :
    storeObjects cam_loc_id objs2 st = st := by
  unfold storeObjects
  rcases h with h | h
  · rw [if_neg]
    simp [h]
  · rw [if_neg]
    simp [h]

theorem process_metadata_file_frame (bucket : Bucket) (locName : String)
    (md : S3Obj) (ref : String) (st : PollState) :
    (process_metadata_file bucket locName md ref st).1.channels = st.channels ∧
    (process_metadata_file bucket locName md ref st).1.objects = st.objects := by
  unfold process_metadata_file
  cases h : dictGet st.metadata ref with
  | none => simp
  | some stored =>
      by_cases hd : bucket.getJson locName md.key ≠ stored <;> simp [hd]

theorem process_metadata_file_lookup (bucket : Bucket) (locName : String)
    (md : S3Obj) (ref : String) (st : PollState) :
    dictGet (process_metadata_file bucket locName md ref st).1.metadata ref =
      some (bucket.getJson locName md.key) := by
  unfold process_metadata_file
  cases h : dictGet st.metadata ref with
  | none => simpa using dictGet_dictSet_self st.metadata ref _
  | some stored =>
      by_cases hd : bucket.getJson locName md.key ≠ stored
      · simpa [hd] using dictGet_dictSet_self st.metadata ref _
      · simp only [hd, if_neg]
        simp only [not_not] at hd
        simp [h, hd]

theorem process_metadata_file_stable (bucket : Bucket) (locName : String)
    (md : S3Obj) (ref : String) (st : PollState)
    (h : dictGet st.metadata ref = some (bucket.getJson locName md.key)) :
    process_metadata_file bucket locName md ref st = (st, []) := by
  unfold process_metadata_file
  rw [h]
  simp

theorem process_metadata_file_msgs (bucket : Bucket) (locName : String)
    (md : S3Obj) (ref : String) (st : PollState) (m : Msg)
    (hm : m ∈ (process_metadata_file bucket locName md ref st).2) :
    ∃ t d, m = Msg.cameraMetadata t d := by
  unfold process_metadata_file at hm
  cases h : dictGet st.metadata ref with
  | none =>
      rw [h] at hm
      simp at hm
      exact ⟨ref, _, hm⟩
  | some stored =>
      rw [h] at hm
      by_cases hd : bucket.getJson locName md.key ≠ stored
      · simp [hd] at hm
        exact ⟨ref, _, hm⟩
      · simp [hd] at hm

theorem uce_go_frame (events : List Event) (cid : String) (chans : List Channel) :
    ∀ st st' msgs, uce_go events cid chans st = .ok (st', msgs) →
      st'.metadata = st.metadata ∧ st'.objects = st.objects := by
  induction chans with
  | nil =>
      intro st st' msgs h
      simp only [uce_go] at h
      cases h
      exact ⟨rfl, rfl⟩
  | cons chan rest ih =>
      intro st st' msgs h
      simp only [uce_go] at h
      cases hl : (chanEvents events chan.name).getLast? with
      | none =>
          rw [hl] at h
          exact ih st st' msgs h
      | some e =>
          rw [hl] at h
          simp only [] at h
          cases hg : dictGet st.channels (cid ++ "/" ++ chan.name) with
          | none => rw [hg] at h; simp only [] at h; cases h
          | some stored =>
              rw [hg] at h
              simp only [] at h
              by_cases hne : optNe stored e = true
              · rw [if_pos hne] at h
                cases hr : uce_go events cid rest
                    { st with channels :=
                        dictSet st.channels (cid ++ "/" ++ chan.name) (some e) } with
                | err e' => rw [hr] at h; simp only [] at h; cases h
                | ok p =>
                    obtain ⟨st'', msgs'⟩ := p
                    rw [hr] at h
                    simp only [] at h
                    cases h
                    have hm := ih _ _ _ hr
                    exact ⟨hm.1, hm.2⟩
              · rw [if_neg hne] at h
                exact ih st st' msgs h

theorem uce_go_msgs (events : List Event) (cid : String) (chans : List Channel) :
    ∀ st st' msgs, uce_go events cid chans st = .ok (st', msgs) →
      ∀ m ∈ msgs, ∃ t e, m = Msg.channel t e := by
  induction chans with
  | nil =>
      intro st st' msgs h
      simp only [uce_go] at h
      cases h
      intro m hm
      cases hm
  | cons chan rest ih =>
      intro st st' msgs h
      simp only [uce_go] at h
      cases hl : (chanEvents events chan.name).getLast? with
      | none =>
          rw [hl] at h
          exact ih st st' msgs h
      | some e =>
          rw [hl] at h
          simp only [] at h
          cases hg : dictGet st.channels (cid ++ "/" ++ chan.name) with
          | none => rw [hg] at h; simp only [] at h; cases h
          | some stored =>
              rw [hg] at h
              simp only [] at h
              by_cases hne : optNe stored e = true
              · rw [if_pos hne] at h
                cases hr : uce_go events cid rest
                    { st with channels :=
                        dictSet st.channels (cid ++ "/" ++ chan.name) (some e) } with
                | err e' => rw [hr] at h; simp only [] at h; cases h
                | ok p =>
                    obtain ⟨st'', msgs'⟩ := p
                    rw [hr] at h
                    simp only [] at h
                    cases h
                    intro m hm
                    rcases List.mem_cons.mp hm with hm | hm
                    · exact ⟨_, _, hm⟩
                    · exact ih _ _ _ hr m hm
              · rw [if_neg hne] at h
                exact ih st st' msgs h

theorem uce_go_lookup (events : List Event) (cid : String) (chans : List Channel) :
    ∀ st st' msgs, uce_go events cid chans st = .ok (st', msgs) →
      ∀ k, dictGet st'.channels k = dictGet st.channels k ∨
        ∃ c, c ∈ chans ∧ k = cid ++ "/" ++ c.name ∧
          ∃ e, (chanEvents events c.name).getLast? = some e ∧
            dictGet st'.channels k = some (some e) := by
  induction chans with
  | nil =>
      intro st st' msgs h
      simp only [uce_go] at h
      cases h
      intro k
      exact Or.inl rfl
  | cons chan rest ih =>
      intro st st' msgs h
      simp only [uce_go] at h
      cases hl : (chanEvents events chan.name).getLast? with
      | none =>
          rw [hl] at h
          intro k
          rcases ih st st' msgs h k with hk | ⟨c, hc, rest'⟩
          · exact Or.inl hk
          · exact Or.inr ⟨c, List.mem_cons_of_mem _ hc, rest'⟩
      | some e =>
          rw [hl] at h
          simp only [] at h
          cases hg : dictGet st.channels (cid ++ "/" ++ chan.name) with
          | none => rw [hg] at h; simp only [] at h; cases h
          | some stored =>
              rw [hg] at h
              simp only [] at h
              by_cases hne : optNe stored e = true
              · rw [if_pos hne] at h
                cases hr : uce_go events cid rest
                    { st with channels :=
                        dictSet st.channels (cid ++ "/" ++ chan.name) (some e) } with
                | err e' => rw [hr] at h; simp only [] at h; cases h
                | ok p =>
                    obtain ⟨st'', msgs'⟩ := p
                    rw [hr] at h
                    simp only [] at h
                    cases h
                    intro k
                    rcases ih _ _ _ hr k with hk | ⟨c, hc, hkc, e', he', hv⟩
                    · by_cases hkk : k = cid ++ "/" ++ chan.name
                      · subst hkk
                        rw [dictGet_dictSet_self] at hk
                        exact Or.inr ⟨chan, List.mem_cons_self _ _, rfl, e, hl, hk⟩
                      · rw [dictGet_dictSet_ne _ _ _ _ hkk] at hk
                        exact Or.inl hk
                    · exact Or.inr ⟨c, List.mem_cons_of_mem _ hc, hkc, e', he', hv⟩
              · rw [if_neg hne] at h
                intro k
                rcases ih st st' msgs h k with hk | ⟨c, hc, rest'⟩
                · exact Or.inl hk
                · exact Or.inr ⟨c, List.mem_cons_of_mem _ hc, rest'⟩

theorem chanName_of_lookup_eq {cid n₁ n₂ : String}
    (h : cid ++ "/" ++ n₁ = cid ++ "/" ++ n₂) : n₁ = n₂ :=
  strAppend_left_cancel h

theorem uce_go_stable (events : List Event) (cid : String) (chans : List Channel) :
    ∀ st st' msgs, uce_go events cid chans st = .ok (st', msgs) →
      uce_go events cid chans st' = .ok (st', []) := by
  induction chans with
  | nil =>
      intro st st' msgs h
      simp only [uce_go] at h
      cases h
      rfl
  | cons chan rest ih =>
      intro st st' msgs h
      simp only [uce_go] at h ⊢
      cases hl : (chanEvents events chan.name).getLast? with
      | none =>
          rw [hl] at h
          exact ih st st' msgs h
      | some e =>
          rw [hl] at h
          simp only [] at h ⊢
          cases hg : dictGet st.channels (cid ++ "/" ++ chan.name) with
          | none => rw [hg] at h; simp only [] at h; cases h
          | some stored =>
              rw [hg] at h
              simp only [] at h
              by_cases hne : optNe stored e = true
              · rw [if_pos hne] at h
                cases hr : uce_go events cid rest
                    { st with channels :=
                        dictSet st.channels (cid ++ "/" ++ chan.name) (some e) } with
                | err e' => rw [hr] at h; simp only [] at h; cases h
                | ok p =>
                    obtain ⟨st'', msgs'⟩ := p
                    rw [hr] at h
                    simp only [] at h
                    cases h
                    have hfin : dictGet st'.channels (cid ++ "/" ++ chan.name) =
                        some (some e) := by
                      rcases uce_go_lookup events cid rest _ _ _ hr
                          (cid ++ "/" ++ chan.name) with hk | ⟨c, _, hkc, e', he', hv⟩
                      · rw [dictGet_dictSet_self] at hk
                        exact hk
                      · have hn : chan.name = c.name := chanName_of_lookup_eq hkc
                        rw [hn, he'] at hl
                        cases hl
                        exact hv
                    rw [hfin]
                    simp only []
                    rw [if_neg (by simp [optNe, eventEq_self])]
                    exact ih _ _ _ hr
              · rw [if_neg hne] at h
                have hfin : ∃ v, dictGet st'.channels (cid ++ "/" ++ chan.name) = some v ∧
                    optNe v e = false := by
                  rcases uce_go_lookup events cid rest st st' msgs h
                      (cid ++ "/" ++ chan.name) with hk | ⟨c, _, hkc, e', he', hv⟩
                  · rw [hg] at hk
                    exact ⟨stored, hk, by simpa using hne⟩
                  · have hn : chan.name = c.name := chanName_of_lookup_eq hkc
                    rw [hn, he'] at hl
                    cases hl
                    exact ⟨some e, hv, by simp [optNe, eventEq_self]⟩
                obtain ⟨v, hv, hvne⟩ := hfin
                rw [hv]
                simp only []
                rw [if_neg (by simp [hvne])]
                exact ih st st' msgs h
theorem optNe_false {stored : Option Event} {e : Event} (h : optNe stored e = false) :
    ∃ e', stored = some e' ∧ eventEq e' e = true := by
  cases stored with
  | none => simp [optNe] at h
  | some e' => exact ⟨e', rfl, by simpa [optNe] using h⟩

theorem keys_ne_of_name_ne {cid n₁ n₂ : String} (h : n₁ ≠ n₂) :
    cid ++ "/" ++ n₁ ≠ cid ++ "/" ++ n₂ :=
  fun hc => h (chanName_of_lookup_eq hc)

theorem uce_go_msgs_mem (events : List Event) (cid : String) (chans : List Channel) :
    ∀ st st' msgs, uce_go events cid chans st = .ok (st', msgs) →
      ∀ m ∈ msgs, ∃ c, c ∈ chans ∧ ∃ e, (chanEvents events c.name).getLast? = some e ∧
        m = Msg.channel (cid ++ "/" ++ c.name) e := by
  induction chans with
  | nil =>
      intro st st' msgs h
      simp only [uce_go] at h
      cases h
      intro m hm
      cases hm
  | cons chan rest ih =>
      intro st st' msgs h
      simp only [uce_go] at h
      cases hl : (chanEvents events chan.name).getLast? with
      | none =>
          rw [hl] at h
          intro m hm
          obtain ⟨c, hc, rest'⟩ := ih st st' msgs h m hm
          exact ⟨c, List.mem_cons_of_mem _ hc, rest'⟩
      | some e =>
          rw [hl] at h
          simp only [] at h
          cases hg : dictGet st.channels (cid ++ "/" ++ chan.name) with
          | none => rw [hg] at h; simp only [] at h; cases h
          | some stored =>
              rw [hg] at h
              simp only [] at h
              by_cases hne : optNe stored e = true
              · rw [if_pos hne] at h
                cases hr : uce_go events cid rest
                    { st with channels :=
                        dictSet st.channels (cid ++ "/" ++ chan.name) (some e) } with
                | err e' => rw [hr] at h; simp only [] at h; cases h
                | ok p =>
                    obtain ⟨st'', msgs'⟩ := p
                    rw [hr] at h
                    simp only [] at h
                    cases h
                    intro m hm
                    rcases List.mem_cons.mp hm with hm | hm
                    · exact ⟨chan, List.mem_cons_self _ _, e, hl, hm⟩
                    · obtain ⟨c, hc, rest'⟩ := ih _ _ _ hr m hm
                      exact ⟨c, List.mem_cons_of_mem _ hc, rest'⟩
              · rw [if_neg hne] at h
                intro m hm
                obtain ⟨c, hc, rest'⟩ := ih st st' msgs h m hm
                exact ⟨c, List.mem_cons_of_mem _ hc, rest'⟩

theorem uce_go_spec (events : List Event) (cid : String) :
    ∀ chans st st' msgs, (chans.map Channel.name).Nodup →
      uce_go events cid chans st = .ok (st', msgs) →
      ∀ chan, chan ∈ chans → ∀ e, (chanEvents events chan.name).getLast? = some e →
        (∃ e', dictGet st'.channels (cid ++ "/" ++ chan.name) = some (some e') ∧
            eventEq e' e = true) ∧
        ∃ stored, dictGet st.channels (cid ++ "/" ++ chan.name) = some stored ∧
          (Msg.channel (cid ++ "/" ++ chan.name) e ∈ msgs ↔ optNe stored e = true) := by
  intro chans
  induction chans with
  | nil =>
      intro st st' msgs _ h chan hchan
      cases hchan
  | cons chan rest ih =>
      intro st st' msgs hnd h chan' hchan' e hlast
      have hnotin : chan.name ∉ rest.map Channel.name := (List.nodup_cons.mp hnd).1
      have hndt : (rest.map Channel.name).Nodup := (List.nodup_cons.mp hnd).2
      simp only [uce_go] at h
      rcases List.mem_cons.mp hchan' with rfl | hmem
      · -- the target channel is the head channel
        rw [hlast] at h
        simp only [] at h
        cases hg : dictGet st.channels (cid ++ "/" ++ chan'.name) with
        | none => rw [hg] at h; simp only [] at h; cases h
        | some stored =>
            rw [hg] at h
            simp only [] at h
            by_cases hne : optNe stored e = true
            · rw [if_pos hne] at h
              cases hr : uce_go events cid rest
                  { st with channels :=
                      dictSet st.channels (cid ++ "/" ++ chan'.name) (some e) } with
              | err e' => rw [hr] at h; simp only [] at h; cases h
              | ok p =>
                  obtain ⟨st'', msgs'⟩ := p
                  rw [hr] at h
                  simp only [] at h
                  cases h
                  constructor
                  · rcases uce_go_lookup events cid rest _ _ _ hr
                        (cid ++ "/" ++ chan'.name) with hk | ⟨c, hc, hkc, e', he', hv⟩
                    · rw [dictGet_dictSet_self] at hk
                      exact ⟨e, hk, eventEq_self e⟩
                    · exact absurd (List.mem_map.mpr ⟨c, hc,
                        (chanName_of_lookup_eq hkc).symm⟩) hnotin
                  · refine ⟨stored, rfl, ?_⟩
                    constructor
                    · intro _
                      exact hne
                    · intro _
                      exact List.mem_cons_self _ _
            · rw [if_neg hne] at h
              constructor
              · rcases uce_go_lookup events cid rest _ _ _ h
                    (cid ++ "/" ++ chan'.name) with hk | ⟨c, hc, hkc, e', he', hv⟩
                · rw [hg] at hk
                  obtain ⟨e', he', heq⟩ := optNe_false (by simpa using hne)
                  exact ⟨e', by rw [hk, he'], heq⟩
                · exact absurd (List.mem_map.mpr ⟨c, hc,
                    (chanName_of_lookup_eq hkc).symm⟩) hnotin
              · refine ⟨stored, rfl, ?_⟩
                constructor
                · intro hin
                  obtain ⟨c, hc, e₀, he₀, hm⟩ := uce_go_msgs_mem events cid rest _ _ _ h _ hin
                  have : chan'.name = c.name :=
                    chanName_of_lookup_eq (Msg.channel.inj hm).1
                  exact absurd (List.mem_map.mpr ⟨c, hc, this.symm⟩) hnotin
                · intro hopt
                  exact absurd hopt hne
      · -- the target channel sits in the tail
        have hname : chan'.name ≠ chan.name := by
          intro hcontra
          exact hnotin (hcontra ▸ List.mem_map.mpr ⟨chan', hmem, rfl⟩)
        cases hl : (chanEvents events chan.name).getLast? with
        | none =>
            rw [hl] at h
            exact ih st st' msgs hndt h chan' hmem e hlast
        | some e₀ =>
            rw [hl] at h
            simp only [] at h
            cases hg : dictGet st.channels (cid ++ "/" ++ chan.name) with
            | none => rw [hg] at h; simp only [] at h; cases h
            | some stored₀ =>
                rw [hg] at h
                simp only [] at h
                by_cases hne : optNe stored₀ e₀ = true
                · rw [if_pos hne] at h
                  cases hr : uce_go events cid rest
                      { st with channels :=
                          dictSet st.channels (cid ++ "/" ++ chan.name) (some e₀) } with
                  | err e' => rw [hr] at h; simp only [] at h; cases h
                  | ok p =>
                      obtain ⟨st'', msgs'⟩ := p
                      rw [hr] at h
                      simp only [] at h
                      cases h
                      obtain ⟨part1, stored, hst, hiff⟩ :=
                        ih _ _ _ hndt hr chan' hmem e hlast
                      refine ⟨part1, stored, ?_, ?_⟩
                      · rw [dictGet_dictSet_ne _ _ _ _
                          (keys_ne_of_name_ne hname)] at hst
                        exact hst
                      · constructor
                        · intro hin
                          rcases List.mem_cons.mp hin with heq | hin'
                          · injection heq with ht he
                            exact absurd (chanName_of_lookup_eq ht) hname
                          · exact hiff.mp hin'
                        · intro hopt
                          exact List.mem_cons_of_mem _ (hiff.mpr hopt)
                · rw [if_neg hne] at h
                  exact ih st st' msgs hndt h chan' hmem e hlast

theorem update_channel_events_frame (events : List Event) (camera : Camera)
    (cid : String) (st st' : PollState) (msgs : List Msg)
    (h : update_channel_events events camera cid st = .ok (st', msgs)) :
    st'.metadata = st.metadata ∧ st'.objects = st.objects := by
  unfold update_channel_events at h
  by_cases he : events.isEmpty
  · rw [if_pos he] at h
    cases h
    exact ⟨rfl, rfl⟩
  · rw [if_neg he] at h
    exact uce_go_frame events cid camera.channels st st' msgs h

theorem update_channel_events_stable (events : List Event) (camera : Camera)
    (cid : String) (st st' : PollState) (msgs : List Msg)
    (h : update_channel_events events camera cid st = .ok (st', msgs)) :
    update_channel_events events camera cid st' = .ok (st', []) := by
  unfold update_channel_events at h ⊢
  by_cases he : events.isEmpty
  · rw [if_pos he] at h
    cases h
    rw [if_pos he]
  · rw [if_neg he] at h ⊢
    exact uce_go_stable events cid camera.channels st st' msgs h

theorem update_channel_events_msgs (events : List Event) (camera : Camera)
    (cid : String) (st st' : PollState) (msgs : List Msg)
    (h : update_channel_events events camera cid st = .ok (st', msgs)) :
    ∀ m ∈ msgs, ∃ t e, m = Msg.channel t e := by
  unfold update_channel_events at h
  by_cases he : events.isEmpty
  · rw [if_pos he] at h
    cases h
    intro m hm
    cases hm
  · rw [if_neg he] at h
    exact uce_go_msgs events cid camera.channels st st' msgs h

/-- Running the per-camera poll body a second time from the state the first
run produced leaves the state unchanged and emits exactly the unconditional
*camera* message: no metadata, channel or night-report message is repeated. -/
theorem pollCamera_stable (bucket : Bucket) (day locName : String) (camera : Camera)
    (st st3 : PollState) (msgs : List Msg)
    (h : pollCamera bucket day locName camera st = .ok (st3, msgs)) :
    ∃ events, pollCamera bucket day locName camera st3 =
      .ok (st3, [Msg.camera (locName ++ "/" ++ camera.name) events]) := by
  unfold pollCamera seive_out_metadata at h ⊢
  simp only [] at h ⊢
  cases hf : filter_camera_metadata_object
      (bucket.listing locName (camera.name ++ "/" ++ day)) with
  | none =>
      rw [hf] at h
      simp only [] at h
      cases h
  | some p =>
      obtain ⟨mdOpt, rest⟩ := p
      rw [hf] at h
      cases mdOpt with
      | none =>
          simp only [] at h ⊢
          cases hu : update_channel_events
              (objects_to_events (seive_out_night_reports rest)) camera
              (locName ++ "/" ++ camera.name)
              (storeObjects (locName ++ "/" ++ camera.name)
                (seive_out_night_reports rest) st) with
          | err e => rw [hu] at h; simp only [] at h; cases h
          | ok q =>
              obtain ⟨stU, msgsU⟩ := q
              rw [hu] at h
              simp only [] at h
              cases h
              have hobj : storeObjects (locName ++ "/" ++ camera.name)
                  (seive_out_night_reports rest) st3 = st3 := by
                apply storeObjects_stable
                by_cases hne : seive_out_night_reports rest = []
                · exact Or.inl hne
                · refine Or.inr ?_
                  have h2 := (update_channel_events_frame _ _ _ _ _ _ hu).2
                  rw [h2, storeObjects_lookup _ _ _ hne]
              refine ⟨objects_to_events (seive_out_night_reports rest), ?_⟩
              rw [hobj, update_channel_events_stable _ _ _ _ _ _ hu]
              rfl
      | some md =>
          simp only [] at h ⊢
          cases hpm : process_metadata_file bucket locName md
              (locName ++ "/" ++ camera.name) st with
          | mk stM msgsM =>
              rw [hpm] at h
              simp only [] at h
              cases hu : update_channel_events
                  (objects_to_events (seive_out_night_reports rest)) camera
                  (locName ++ "/" ++ camera.name)
                  (storeObjects (locName ++ "/" ++ camera.name)
                    (seive_out_night_reports rest) stM) with
              | err e => rw [hu] at h; simp only [] at h; cases h
              | ok q =>
                  obtain ⟨stU, msgsU⟩ := q
                  rw [hu] at h
                  simp only [] at h
                  cases h
                  have hmetaM : dictGet stM.metadata (locName ++ "/" ++ camera.name) =
                      some (bucket.getJson locName md.key) := by
                    have hx := process_metadata_file_lookup bucket locName md
                      (locName ++ "/" ++ camera.name) st
                    rw [hpm] at hx
                    exact hx
                  have hmeta3 : dictGet st3.metadata (locName ++ "/" ++ camera.name) =
                      some (bucket.getJson locName md.key) := by
                    have h1 := (update_channel_events_frame _ _ _ _ _ _ hu).1
                    rw [h1, storeObjects_metadata]
                    exact hmetaM
                  have hobj : storeObjects (locName ++ "/" ++ camera.name)
                      (seive_out_night_reports rest) st3 = st3 := by
                    apply storeObjects_stable
                    by_cases hne : seive_out_night_reports rest = []
                    · exact Or.inl hne
                    · refine Or.inr ?_
                      have h2 := (update_channel_events_frame _ _ _ _ _ _ hu).2
                      rw [h2, storeObjects_lookup _ _ _ hne]
                  have hp1 : (process_metadata_file bucket locName md
                      (locName ++ "/" ++ camera.name) st3).1 = st3 := by
                    rw [process_metadata_file_stable bucket locName md
                      (locName ++ "/" ++ camera.name) st3 hmeta3]
                  have hp2 : (process_metadata_file bucket locName md
                      (locName ++ "/" ++ camera.name) st3).2 = ([] : List Msg) := by
                    rw [process_metadata_file_stable bucket locName md
                      (locName ++ "/" ++ camera.name) st3 hmeta3]
                  refine ⟨objects_to_events (seive_out_night_reports rest), ?_⟩
                  rw [hp1, hp2, hobj, update_channel_events_stable _ _ _ _ _ _ hu]
                  rfl

theorem pollCamera_msg_kinds (bucket : Bucket) (day locName : String)
    (camera : Camera) (st st' : PollState) (msgs : List Msg)
    (h : pollCamera bucket day locName camera st = .ok (st', msgs)) :
    ∀ m ∈ msgs, m.isNightReport = false := by
  unfold pollCamera seive_out_metadata at h
  simp only [] at h
  cases hf : filter_camera_metadata_object
      (bucket.listing locName (camera.name ++ "/" ++ day)) with
  | none =>
      rw [hf] at h
      simp only [] at h
      cases h
  | some p =>
      obtain ⟨mdOpt, rest⟩ := p
      rw [hf] at h
      cases mdOpt with
      | none =>
          simp only [] at h
          cases hu : update_channel_events
              (objects_to_events (seive_out_night_reports rest)) camera
              (locName ++ "/" ++ camera.name)
              (storeObjects (locName ++ "/" ++ camera.name)
                (seive_out_night_reports rest) st) with
          | err e => rw [hu] at h; simp only [] at h; cases h
          | ok q =>
              obtain ⟨stU, msgsU⟩ := q
              rw [hu] at h
              simp only [] at h
              cases h
              intro m hm
              simp only [List.append_assoc, List.mem_append, List.mem_singleton,
                List.nil_append] at hm
              rcases hm with hm | hm
              · obtain ⟨t, e, rfl⟩ := update_channel_events_msgs _ _ _ _ _ _ hu m hm
                rfl
              · subst hm
                rfl
      | some md =>
          simp only [] at h
          cases hpm : process_metadata_file bucket locName md
              (locName ++ "/" ++ camera.name) st with
          | mk stM msgsM =>
              rw [hpm] at h
              simp only [] at h
              cases hu : update_channel_events
                  (objects_to_events (seive_out_night_reports rest)) camera
                  (locName ++ "/" ++ camera.name)
                  (storeObjects (locName ++ "/" ++ camera.name)
                    (seive_out_night_reports rest) stM) with
              | err e => rw [hu] at h; simp only [] at h; cases h
              | ok q =>
                  obtain ⟨stU, msgsU⟩ := q
                  rw [hu] at h
                  simp only [] at h
                  cases h
                  intro m hm
                  simp only [List.append_assoc, List.mem_append,
                    List.mem_singleton] at hm
                  rcases hm with hm | hm | hm
                  · have hx := process_metadata_file_msgs bucket locName md
                      (locName ++ "/" ++ camera.name) st m (by rw [hpm]; exact hm)
                    obtain ⟨t, d, rfl⟩ := hx
                    rfl
                  · obtain ⟨t, e, rfl⟩ := update_channel_events_msgs _ _ _ _ _ _ hu m hm
                    rfl
                  · subst hm
                    rfl

/-! ## Claims -/

/-- A store that fails every request with a non-not-found client error. -/
def exStoreDenied : String → S3GetResponse := fun _ => .clientError "AccessDenied"

/-- A historical channel-event object: day 2024-01-10, seq 100. -/
def exObj10 : S3Obj :=
  { key := "ts8/2024-01-10/monitor/000100/ts8_monitor_2024-01-10_000100.jpg",
    hash := "a" }

/-- A historical channel-event object: day 2024-01-15, seq 5. -/
def exObj15 : S3Obj :=
  { key := "ts8/2024-01-15/monitor/000005/ts8_monitor_2024-01-15_000005.jpg",
    hash := "b" }

/-- C1 (counterexample): polling an unchanged (here: empty) bucket is not
broadcast-free on the second iteration.  One full poll iteration over the
empty listing leaves the state exactly as initialised — so a second
iteration is the very same call — yet it emits a *camera* message, because
`poll_buckets_for_todays_data` calls the camera broadcast unconditionally.
This refutes both "the second iteration emits no broadcast messages at all"
and the special case "an empty listing produces no change messages". -/
theorem C1_counterexample :
    poll_iteration exBucketEmpty "2024-01-15" exLocations (initState exLocations)
      = .ok (initState exLocations, [Msg.camera "slac/ts8" []]) ∧
    ([Msg.camera "slac/ts8" []] : List Msg) ≠ [] := by
  decide

/-- C1 (amended): per (location, camera), a second poll-body run over
identical bucket contents leaves the poller state unchanged and emits
exactly the one unconditional *camera* message — in particular no metadata
and no channel message is re-broadcast when nothing changed. -/
theorem C1_amended (bucket : Bucket) (day locName : String) (camera : Camera)
    (st st3 : PollState) (msgs : List Msg)
    (h : pollCamera bucket day locName camera st = .ok (st3, msgs)) :
    ∃ events, pollCamera bucket day locName camera st3 =
      .ok (st3, [Msg.camera (locName ++ "/" ++ camera.name) events]) :=
  pollCamera_stable bucket day locName camera st st3 msgs h

/-- C1 (witness): the amended theorem applied to the concrete empty-bucket
fixture. -/
theorem C1_amended_witness :
    ∃ events, pollCamera exBucketEmpty "2024-01-15" "slac" exCamera
        (initState exLocations) =
      .ok (initState exLocations, [Msg.camera ("slac" ++ "/" ++ exCamera.name) events]) :=
  C1_amended exBucketEmpty "2024-01-15" "slac" exCamera (initState exLocations)
    (initState exLocations) [Msg.camera "slac/ts8" []] (by decide)

/-- The poller state after caching event seq-3 for `slac/ts8/monitor`. -/
def exStateAfter : PollState :=
  { objects := [], metadata := [],
    channels := [("slac/ts8/monitor", some exEvent3)] }

/-- C2 (counterexample): with the listing ordered seq-5-then-seq-3,
`update_channel_events` caches the *last listed* event (seq 3), not the
argmax over `seq_num` (seq 5) — `ch_events.pop()` takes the last element in
listing order. -/
theorem C2_counterexample :
    update_channel_events (objects_to_events [exObj5, exObj3]) exCamera "slac/ts8"
        (initState exLocations)
      = .ok (exStateAfter, [Msg.channel "slac/ts8/monitor" exEvent3]) ∧
    exEvent3.seq_num.toOrd < exEvent5.seq_num.toOrd ∧
    exEvent5 ∈ objects_to_events [exObj5, exObj3] := by
  decide

/-- C2 (amended): for every channel of the camera (channel names distinct),
after `update_channel_events` the cached current event is the *last* event
of that channel in listing order (up to the code's key-and-hash event
identity), and a channel message is broadcast exactly when that event
differs — under `eventEq` — from the previously cached one. -/
theorem C2_amended (events : List Event) (camera : Camera) (cid : String)
    (st st' : PollState) (msgs : List Msg)
    (hnd : (camera.channels.map Channel.name).Nodup)
    (h : update_channel_events events camera cid st = .ok (st', msgs))
    (chan : Channel) (hchan : chan ∈ camera.channels)
    (e : Event) (hlast : (chanEvents events chan.name).getLast? = some e) :
    (∃ e', dictGet st'.channels (cid ++ "/" ++ chan.name) = some (some e') ∧
        eventEq e' e = true) ∧
    ∃ stored, dictGet st.channels (cid ++ "/" ++ chan.name) = some stored ∧
      (Msg.channel (cid ++ "/" ++ chan.name) e ∈ msgs ↔ optNe stored e = true) := by
  unfold update_channel_events at h
  by_cases he : events.isEmpty
  · rw [if_pos he] at h
    rw [List.isEmpty_iff] at he
    subst he
    cases hlast
  · rw [if_neg he] at h
    exact uce_go_spec events cid camera.channels st st' msgs hnd h chan hchan e hlast

/-- C2 (witness): the amended theorem applied to the two-event fixture. -/
theorem C2_amended_witness :
    (∃ e', dictGet exStateAfter.channels "slac/ts8/monitor" = some (some e') ∧
        eventEq e' exEvent3 = true) ∧
    ∃ stored, dictGet (initState exLocations).channels "slac/ts8/monitor"
        = some stored ∧
      (Msg.channel "slac/ts8/monitor" exEvent3 ∈
        [Msg.channel "slac/ts8/monitor" exEvent3] ↔ optNe stored exEvent3 = true) :=
  C2_amended (objects_to_events [exObj5, exObj3]) exCamera "slac/ts8"
    (initState exLocations) exStateAfter
    [Msg.channel "slac/ts8/monitor" exEvent3]
    (by decide) (by decide) { name := "monitor" } (by decide) exEvent3 (by decide)

/-- C3: with two `metadata.json` objects under one day prefix, the
`ValueError` from `filter_camera_metadata_object` is logged, but the
following `if md_obj:` reads the never-assigned local `md_obj` and the poll
iteration dies with an `UnboundLocalError` — the code crashes where the
claim (and the intent of the `except` clause) says it must complete. -/
theorem C3_code_bug :
    poll_iteration exBucketTwoMd "2024-01-15" exLocations (initState exLocations)
      = .err PyErr.unboundLocalError := by
  decide

/-- C4: `check_for_new_day` tests `_last_reload > get_current_day_obs()`,
the reversed comparison.  In the state where the initial download is done,
`_last_reload` is day 100 and the current day has rolled over to 101, the
wake performs no rebuild, contradicting the claim (and the class docstring
"updates when the day rolls over"). -/
theorem C4_code_bug :
    check_for_new_day_step 101 { haveDownloaded := true, lastReload := 100 }
      = ({ haveDownloaded := true, lastReload := 100 }, false) ∧ (100 : Nat) < 101 := by
  decide

/-- C5: `notify_channel_update` matches subscriptions with
`to_update == "camera"`, so a *channel* message is delivered to a client
whose subscription kind is `"camera"` (with the channel-shaped target) and
is *not* delivered to a client subscribed with kind `"channel"` — refuting
exact `(kind, target)` matching. -/
theorem C5_code_bug :
    notify_channel_update [(7, ("camera", "slac/ts8/monitor"))]
      ("slac/ts8/monitor", exEvent3) = [7] ∧
    notify_channel_update [(8, ("channel", "slac/ts8/monitor"))]
      ("slac/ts8/monitor", exEvent3) = [] ∧
    ("camera" : String) ≠ "channel" := by
  decide

/-- C6 (counterexample): a poll over a listing that gained a night-report
object (relative to the empty cached set) emits only the camera message —
no night-report fetch or broadcast happens; `seive_out_night_reports` drops
the report objects and `process_night_report_objects` is a no-op. -/
theorem C6_counterexample :
    pollCamera exBucketNR "2024-01-15" "slac" exCamera (initState exLocations)
      = .ok (initState exLocations, [Msg.camera "slac/ts8" []]) ∧
    Msg.nightReport "slac/ts8" ∉ [Msg.camera "slac/ts8" []] := by
  decide

/-- C6 (amended): the per-camera poll body never emits a night-report
message, whatever the bucket contents. -/
theorem C6_amended (bucket : Bucket) (day locName : String) (camera : Camera)
    (st st' : PollState) (msgs : List Msg)
    (h : pollCamera bucket day locName camera st = .ok (st', msgs)) :
    ∀ m ∈ msgs, m.isNightReport = false :=
  pollCamera_msg_kinds bucket day locName camera st st' msgs h

/-- C6 (witness): the amended theorem applied to the night-report fixture. -/
theorem C6_amended_witness :
    (Msg.camera "slac/ts8" []).isNightReport = false :=
  C6_amended exBucketNR "2024-01-15" "slac" exCamera (initState exLocations)
    (initState exLocations) [Msg.camera "slac/ts8" []] (by decide)
    (Msg.camera "slac/ts8" []) (by decide)

/-- C7 (counterexample): `_get_object` returns `None` on an `AccessDenied`
client error — a non-not-found client error *is* silently converted into a
null result, and no `StorageError` is raised. -/
theorem C7_counterexample :
    s3_get_object exStoreDenied (fun _ => none) "some/key" = .ok none ∧
    exStoreDenied "some/key" = .clientError "AccessDenied" ∧
    ("AccessDenied" : String) ≠ "NoSuchKey" := by
  decide

/-- C7 (amended): the JSON fetch returns null on *every* storage client
error, whatever its error code (not-found or otherwise); it never raises. -/
theorem C7_amended (store : String → S3GetResponse)
    (jsonLoads : String → Option MetaJson) (key code : String)
    (h : store key = .clientError code) :
    s3_get_object store jsonLoads key = .ok none := by
  unfold s3_get_object
  rw [h]

/-- C7 (witness): the amended theorem applied to the denied store. -/
theorem C7_amended_witness :
    s3_get_object exStoreDenied (fun _ => none) "some/key" = .ok none :=
  C7_amended exStoreDenied (fun _ => none) "some/key" "AccessDenied" rfl

/-- C8: for every instant `t` (seconds since the epoch) lying in the
observatory day `d` — that is, between noon UTC of day `d` and noon UTC of
day `d+1` — `get_current_day_obs` returns `d`: the calendar date of the
current UTC time shifted by minus 12 hours, rolling over at noon UTC. -/
theorem C8_day_obs (t d : Int) (h1 : 86400 * d + 43200 ≤ t)
    (h2 : t < 86400 * d + 129600) :
    get_current_day_obs t = d := by
  unfold get_current_day_obs dateOfInstant timedeltaHours
  omega

/-- C8 (witness): noon UTC of epoch day 0 is the first instant of
observatory day 0. -/
theorem C8_day_obs_witness : get_current_day_obs 43200 = 0 :=
  C8_day_obs 43200 0 (by decide) (by decide)

/-- C9: `get_most_recent_day` returns the date of the event with the
highest `seq_num`, not the latest date.  With a seq-100 event on 2024-01-10
and a seq-5 event on 2024-01-15, it answers 2024-01-10 although an event
exists on the strictly later day 2024-01-15 — contradicting the claim and
the method's own docstring ("most recent day for which there is data"). -/
theorem C9_code_bug :
    get_most_recent_day (objects_to_events [exObj10, exObj15]) "ts8"
      = some 20240110 ∧
    (objects_to_events [exObj10, exObj15]).map (fun e => day_obs_date e.day_obs)
      = [20240110, 20240115] ∧
    (20240110 : Nat) < 20240115 := by
  decide

/-- C10: `get_presigned_url` builds its request with the hard-coded
`ExpiresIn=300` (no caller-supplied TTL exists), returns the generated URL
on success, and returns the empty string instead of raising when the
storage client fails. -/
theorem C10_presign (sign : PresignParams → Except String String)
    (bucket key : String) :
    (presign_request bucket key).expiresIn = 300 ∧
    (∀ er, sign (presign_request bucket key) = .error er →
      get_presigned_url sign bucket key = "") ∧
    (∀ u, sign (presign_request bucket key) = .ok u →
      get_presigned_url sign bucket key = u) := by
  refine ⟨rfl, ?_, ?_⟩
  · intro er her
    unfold get_presigned_url
    rw [her]
  · intro u hu
    unfold get_presigned_url
    rw [hu]

/-- C10 (witness): the theorem applied to a store whose signing call fails. -/
theorem C10_presign_witness :
    (presign_request "bkt" "k").expiresIn = 300 ∧
    get_presigned_url (fun _ => Except.error "denied") "bkt" "k" = "" :=
  ⟨(C10_presign (fun _ => Except.error "denied") "bkt" "k").1,
   (C10_presign (fun _ => Except.error "denied") "bkt" "k").2.1 "denied" rfl⟩

end RubinTV
